import Mathlib

/-!
Verification of the CLI Assistant (src/cli_assistant.py) against its
natural-language specification.

The program is shallowly embedded: each Python method of `CLIAssistant`
that the claims touch becomes a Lean function over an explicit state.
Machine-level concerns that the claims do not mention (the OS clock, the
real filesystem contents, stdout buffering) are passed in as explicit
parameters (`now : String`, an abstract file-system map).  Handlers that
only print and never touch state (help, time, date, weather, system,
files, convert, search, history, clear, exit, quit) are modelled as the
identity on state with their printed text elided, which matches the
source: none of them assigns to `self.notes`, `self.todos` or
`self.history`.  `search_files` gets a dedicated model of its output
lines (below) because one claim is about them.
-/

/-- A note value: `{'content': ..., 'timestamp': ...}` (cli_assistant.py:155). -/
structure Note where
  content : String
  timestamp : String
  deriving Repr, DecidableEq

/-- A todo item: `{'task': ..., 'done': ..., 'created': ...}` (cli_assistant.py:207-211). -/
structure Todo where
  task : String
  done : Bool
  created : String
  deriving Repr, DecidableEq

/-- A history entry: `{'command': ..., 'timestamp': ...}` (cli_assistant.py:65). -/
structure HistEntry where
  command : String
  timestamp : String
  deriving Repr, DecidableEq

/-- `self.notes`: a Python dict keyed by title, embedded as an insertion-ordered
association list (Python dicts preserve insertion order). -/
abbrev NotesData := List (String × Note)

abbrev TodosData := List Todo

abbrev HistData := List HistEntry

/-- JSON values, as produced by Python's `json` module for the data this
program stores (all leaves here are strings and booleans). -/
inductive Json where
  | null : Json
  | bool (b : Bool) : Json
  | num (n : Int) : Json
  | str (s : String) : Json
  | arr (xs : List Json) : Json
  | obj (kvs : List (String × Json)) : Json
  deriving Repr

/-- What a data file on disk can hold: a successfully-parsed JSON document,
or `bad` for content that fails to parse (malformed JSON) or fails to read
(I/O error) — the two cases `load_json` treats identically (cli_assistant.py:50). -/
inductive FileContent where
  | good (j : Json) : FileContent
  | bad : FileContent

/-- The file system visible to the program: a map from path to content.
`none` means the file does not exist. -/
abbrev FS := String → Option FileContent

/-- `self.notes_file` (cli_assistant.py:32). -/
def notesPath : String := "notes.json"

/-- `self.todos_file` (cli_assistant.py:33). -/
def todosPath : String := "todos.json"

/-- `self.history_file` (cli_assistant.py:34). -/
def historyPath : String := "history.json"

/-- `load_json(file_path, default)` (cli_assistant.py:44-52): return the parsed
content when the file exists and parses; on a missing file, malformed JSON or
I/O error return `default`.  The function is total: no exception reaches the
caller. -/
def load_json (fs : FS) (file_path : String) (default : Json) : Json :=
  match fs file_path with
  | some (.good j) => j
  | some .bad => default
  | none => default

/-- `save_json(file_path, data)` (cli_assistant.py:54-60): serialize `data` and
overwrite `file_path`.  The branch catching `IOError` (which prints and leaves
the file untouched) is not modelled: writes succeed in this model. -/
def save_json (fs : FS) (file_path : String) (data : Json) : FS :=
  fun p => if p = file_path then some (.good data) else fs p

/-- JSON encoding of one note value, as `json.dump` lays it out. -/
def noteToJson (n : Note) : Json :=
  .obj [("content", .str n.content), ("timestamp", .str n.timestamp)]

/-- JSON encoding of the notes collection (a title-keyed mapping). -/
def notesToJson (ns : NotesData) : Json :=
  .obj (ns.map (fun p => (p.1, noteToJson p.2)))

/-- JSON encoding of one todo item. -/
def todoToJson (t : Todo) : Json :=
  .obj [("task", .str t.task), ("done", .bool t.done), ("created", .str t.created)]

/-- JSON encoding of the todo sequence. -/
def todosToJson (ts : TodosData) : Json :=
  .arr (ts.map todoToJson)

/-- JSON encoding of one history entry. -/
def histEntryToJson (e : HistEntry) : Json :=
  .obj [("command", .str e.command), ("timestamp", .str e.timestamp)]

/-- JSON encoding of the history sequence. -/
def histToJson (h : HistData) : Json :=
  .arr (h.map histEntryToJson)

/-- Decode one note value; inverse of `noteToJson` on its range. -/
def noteFromJson : Json → Option Note
  | .obj [("content", .str c), ("timestamp", .str t)] => some ⟨c, t⟩
  | _ => none

/-- Decode a list of keyed note values. -/
def notesFromJsonKVs : List (String × Json) → Option NotesData
  | [] => some []
  | (k, j) :: r =>
    match noteFromJson j, notesFromJsonKVs r with
    | some n, some ns => some ((k, n) :: ns)
    | _, _ => none

/-- Decode the notes collection; inverse of `notesToJson` on its range. -/
def notesFromJson : Json → Option NotesData
  | .obj kvs => notesFromJsonKVs kvs
  | _ => none

/-- Decode one todo item; inverse of `todoToJson` on its range. -/
def todoFromJson : Json → Option Todo
  | .obj [("task", .str s), ("done", .bool b), ("created", .str c)] => some ⟨s, b, c⟩
  | _ => none

/-- Decode a list of todo items. -/
def todosFromJsonList : List Json → Option TodosData
  | [] => some []
  | j :: r =>
    match todoFromJson j, todosFromJsonList r with
    | some t, some ts => some (t :: ts)
    | _, _ => none

/-- Decode the todo sequence; inverse of `todosToJson` on its range. -/
def todosFromJson : Json → Option TodosData
  | .arr xs => todosFromJsonList xs
  | _ => none

/-- Decode one history entry; inverse of `histEntryToJson` on its range. -/
def histEntryFromJson : Json → Option HistEntry
  | .obj [("command", .str c), ("timestamp", .str t)] => some ⟨c, t⟩
  | _ => none

/-- Decode a list of history entries. -/
def histFromJsonList : List Json → Option HistData
  | [] => some []
  | j :: r =>
    match histEntryFromJson j, histFromJsonList r with
    | some e, some es => some (e :: es)
    | _, _ => none

/-- Decode the history sequence; inverse of `histToJson` on its range. -/
def histFromJson : Json → Option HistData
  | .arr xs => histFromJsonList xs
  | _ => none

/-- The in-memory program state: `self.notes`, `self.todos`, `self.history`
plus the file system the three `save_json` targets live in. -/
structure St where
  notes : NotesData
  todos : TodosData
  history : HistData
  fs : FS

/-- The pure history update of `add_to_history` (cli_assistant.py:65-67):
append the entry, then `self.history = self.history[-100:]` — Python's
`l[-100:]` keeps the last `min(len(l), 100)` elements, i.e. drops
`len(l) - 100` from the front (truncated subtraction). -/
def histAppend (h : HistData) (e : HistEntry) : HistData :=
  let h2 := h ++ [e]
  h2.drop (h2.length - 100)

/-- `add_to_history(command)` (cli_assistant.py:62-68): append a timestamped
entry, keep only the last 100, persist to the history file. -/
def add_to_history (now : String) (st : St) (command : String) : St :=
  let h := histAppend st.history ⟨command, now⟩
  { st with history := h, fs := save_json st.fs historyPath (histToJson h) }

/- ### String helpers: the Python string operations the program uses -/

/-- A single ASCII apostrophe, used in several user-visible messages. -/
def squote : String := String.mk [Char.ofNat 39]

/-- Python `str.strip()` on a character list: drop leading and trailing
whitespace. -/
def pyStripList (l : List Char) : List Char :=
  ((l.dropWhile Char.isWhitespace).reverse.dropWhile Char.isWhitespace).reverse

/-- Python `str.strip()`. -/
def pyStrip (s : String) : String :=
  String.mk (pyStripList s.data)

/-- Worker for `str.split()`: accumulate the current token (reversed) and cut
at whitespace, discarding empty tokens, exactly as Python's no-argument
`split` does. -/
def splitWsAux : List Char → List Char → List String
  | [], acc => if acc.isEmpty then [] else [String.mk acc.reverse]
  | c :: cs, acc =>
    if c.isWhitespace then
      if acc.isEmpty then splitWsAux cs [] else String.mk acc.reverse :: splitWsAux cs []
    else splitWsAux cs (c :: acc)

/-- Python `str.split()` with no separator: split on runs of whitespace,
no empty tokens. -/
def pySplitWs (s : String) : List String :=
  splitWsAux s.data []

/-- Python `str.lower()` (the program only feeds it ASCII command words). -/
def pyLower (s : String) : String :=
  String.mk (s.data.map Char.toLower)

/-- Python `' '.join(args)`. -/
def joinSp (args : List String) : String :=
  String.intercalate " " args

/-- Python substring test `pat in hay` on character lists. -/
def strContains (hay pat : List Char) : Bool :=
  (List.range (hay.length + 1)).any (fun i => (hay.drop i).take pat.length == pat)

/-- Numeric value of a decimal digit character. -/
def digitVal (c : Char) : Nat :=
  c.toNat - 48

/-- Digit-run parser for Python `int(...)`: consumes decimal digits with
single underscores allowed between digits (as Python accepts), rejecting a
trailing or doubled underscore. -/
def pyDigitsLoop : Nat → List Char → Option Nat
  | acc, [] => some acc
  | acc, '_' :: c :: r =>
    if c.isDigit then pyDigitsLoop (acc * 10 + digitVal c) r else none
  | _, ['_'] => none
  | acc, c :: r =>
    if c.isDigit then pyDigitsLoop (acc * 10 + digitVal c) r else none

/-- Unsigned part of Python `int(...)`: at least one leading digit. -/
def pyNatDigits : List Char → Option Nat
  | [] => none
  | c :: r => if c.isDigit then pyDigitsLoop (digitVal c) r else none

/-- Python `int(s)` on a decimal string: strip whitespace, optional sign,
digits; `none` models the `ValueError` the program catches
(cli_assistant.py:236, 251). -/
def pyToInt (s : String) : Option Int :=
  match pyStripList s.data with
  | '+' :: r => (pyNatDigits r).map (fun n => (n : Int))
  | '-' :: r => (pyNatDigits r).map (fun n => -(n : Int))
  | r => (pyNatDigits r).map (fun n => (n : Int))

/- ### The calculator (cli_assistant.py:120-138) -/

/-- The character whitelist of `calculator`:
`set('0123456789+-*/.() ')` (cli_assistant.py:130). -/
def allowedChar (c : Char) : Bool :=
  "0123456789+-*/.() ".data.contains c

/-- Tokens of an arithmetic expression. -/
inductive Tok where
  | num (n : Nat) : Tok
  | add : Tok
  | sub : Tok
  | mul : Tok
  | lp : Tok
  | rp : Tok
  deriving Repr, DecidableEq

/-- Value of a run of decimal digits. -/
def digitsToNat (ds : List Char) : Nat :=
  ds.foldl (fun a c => a * 10 + digitVal c) 0

/-- Fuel-indexed tokenizer for the arithmetic expressions `eval` receives.
Characters outside the integer-arithmetic fragment (`/`, `.`) make the whole
evaluation fall outside this model (`none`). -/
def tokenizeF : Nat → List Char → Option (List Tok)
  | 0, _ => none
  | _ + 1, [] => some []
  | f + 1, c :: cs =>
    if c = ' ' then tokenizeF f cs
    else if c.isDigit then
      match tokenizeF f ((c :: cs).dropWhile Char.isDigit) with
      | some ts => some (.num (digitsToNat ((c :: cs).takeWhile Char.isDigit)) :: ts)
      | none => none
    else if c = '+' then (tokenizeF f cs).map (Tok.add :: ·)
    else if c = '-' then (tokenizeF f cs).map (Tok.sub :: ·)
    else if c = '*' then (tokenizeF f cs).map (Tok.mul :: ·)
    else if c = '(' then (tokenizeF f cs).map (Tok.lp :: ·)
    else if c = ')' then (tokenizeF f cs).map (Tok.rp :: ·)
    else none

mutual

/-- Expression level of the evaluator: a term followed by `+`/`-` chains. -/
def parseE : Nat → List Tok → Option (Int × List Tok)
  | 0, _ => none
  | f + 1, toks =>
    match parseT f toks with
    | some (v, rest) => parseEL f v rest
    | none => none

/-- Left-associated additive chain. -/
def parseEL : Nat → Int → List Tok → Option (Int × List Tok)
  | 0, _, _ => none
  | f + 1, v, Tok.add :: r =>
    (match parseT f r with
     | some (v2, r2) => parseEL f (v + v2) r2
     | none => none)
  | f + 1, v, Tok.sub :: r =>
    (match parseT f r with
     | some (v2, r2) => parseEL f (v - v2) r2
     | none => none)
  | _ + 1, v, toks => some (v, toks)

/-- Term level: a factor followed by `*` chains. -/
def parseT : Nat → List Tok → Option (Int × List Tok)
  | 0, _ => none
  | f + 1, toks =>
    match parseF f toks with
    | some (v, rest) => parseTL f v rest
    | none => none

/-- Left-associated multiplicative chain. -/
def parseTL : Nat → Int → List Tok → Option (Int × List Tok)
  | 0, _, _ => none
  | f + 1, v, Tok.mul :: r =>
    (match parseF f r with
     | some (v2, r2) => parseTL f (v * v2) r2
     | none => none)
  | _ + 1, v, toks => some (v, toks)

/-- Factor level: numeral, unary sign, or parenthesised expression. -/
def parseF : Nat → List Tok → Option (Int × List Tok)
  | 0, _ => none
  | _ + 1, Tok.num n :: r => some ((n : Int), r)
  | f + 1, Tok.sub :: r =>
    (match parseF f r with
     | some (v, r2) => some (-v, r2)
     | none => none)
  | f + 1, Tok.add :: r => parseF f r
  | f + 1, Tok.lp :: r =>
    (match parseE f r with
     | some (v, Tok.rp :: r2) => some (v, r2)
     | _ => none)
  | _ + 1, _ => none

end

/-- Python `eval(expression)` restricted to the integer-arithmetic fragment
(`+ - *` with parentheses) the claims exercise; `none` stands for any raised
exception, which `calculator` catches and reports. -/
def pyEvalInt (s : String) : Option Int :=
  match tokenizeF (s.length + 1) s.data with
  | some toks =>
    match parseE (2 * toks.length + 2) toks with
    | some (v, []) => some v
    | _ => none
  | none => none

/-- `calculator(args)` (cli_assistant.py:120-138) as a function from the
argument list to the printed lines: usage on no arguments; whitelist check
before any evaluation; `eval` result printed as `<expr> = <value>`; the text
after `Error calculating` (the exception message) is elided. -/
def calculator (args : List String) : List String :=
  if args.isEmpty then
    ["Usage: calc <expression>", "Example: calc 2 + 3 * 4"]
  else
    let expression := joinSp args
    if expression.data.all allowedChar then
      match pyEvalInt expression with
      | some v => [expression ++ " = " ++ toString v]
      | none => ["Error calculating"]
    else
      ["Error: Only basic math operations allowed"]

/- ### Notes (cli_assistant.py:140-192) -/

/-- Python dict assignment `d[k] = v` on the ordered association list:
overwrite in place when the key exists, else append at the end. -/
def dictInsert (l : NotesData) (k : String) (v : Note) : NotesData :=
  match l with
  | [] => [(k, v)]
  | (k1, v1) :: r => if k1 = k then (k, v) :: r else (k1, v1) :: dictInsert r k v

/-- Python `del d[k]` on the ordered association list. -/
def dictErase (l : NotesData) (k : String) : NotesData :=
  match l with
  | [] => []
  | (k1, v1) :: r => if k1 = k then r else (k1, v1) :: dictErase r k

/-- The titles of the note collection (the dict keys). -/
def keysN (l : NotesData) : List String :=
  l.map Prod.fst

/-- Python `d.get`-style lookup on the ordered association list. -/
def lookupN : NotesData → String → Option Note
  | [], _ => none
  | (k, v) :: r, t => if k = t then some v else lookupN r t

/-- The `add` branch of `note_manager` (cli_assistant.py:148-157). -/
def noteAddBranch (now : String) (st : St) : List String → St × List String
  | title :: c0 :: cs =>
    let content := joinSp (c0 :: cs)
    let notes := dictInsert st.notes title ⟨content, now⟩
    ({ st with notes := notes, fs := save_json st.fs notesPath (notesToJson notes) },
     ["Note " ++ squote ++ title ++ squote ++ " added successfully"])
  | _ => (st, ["Usage: note add <title> <content>"])

/-- The `list` branch of `note_manager` (cli_assistant.py:159-166); the
leading `\n` of each title line becomes a separate empty line. -/
def noteListBranch (st : St) : St × List String :=
  if st.notes.isEmpty then (st, ["No notes found"])
  else
    (st, (st.notes.map (fun p =>
      ["", p.1 ++ ":", "  " ++ p.2.content, "  Created: " ++ String.mk (p.2.timestamp.data.take 19)])).flatten)

/-- The `delete` branch of `note_manager` (cli_assistant.py:168-178). -/
def noteDeleteBranch (st : St) : List String → St × List String
  | title :: _ =>
    if (keysN st.notes).contains title then
      let notes := dictErase st.notes title
      ({ st with notes := notes, fs := save_json st.fs notesPath (notesToJson notes) },
       ["Note " ++ squote ++ title ++ squote ++ " deleted"])
    else (st, ["Note " ++ squote ++ title ++ squote ++ " not found"])
  | _ => (st, ["Usage: note delete <title>"])

/-- The `search` branch of `note_manager` (cli_assistant.py:180-192). -/
def noteSearchBranch (st : St) : List String → St × List String
  | kw :: _ =>
    let keyword := pyLower kw
    let found := st.notes.filter (fun p =>
      strContains (pyLower p.1).data keyword.data ||
      strContains (pyLower p.2.content).data keyword.data)
    if found.isEmpty then (st, ["No notes found matching the keyword"])
    else (st, (found.map (fun p => ["", p.1 ++ ":", "  " ++ p.2.content])).flatten)
  | _ => (st, ["Usage: note search <keyword>"])

/-- `note_manager(args)` (cli_assistant.py:140-192): dispatch on the lowered
action word; an unrecognized action falls through silently. -/
def note_manager (now : String) (st : St) (args : List String) : St × List String :=
  match args with
  | [] => (st, ["Usage: note <add|list|delete|search> [arguments]"])
  | a0 :: rest =>
    let action := pyLower a0
    if action = "add" then noteAddBranch now st rest
    else if action = "list" then noteListBranch st
    else if action = "delete" then noteDeleteBranch st rest
    else if action = "search" then noteSearchBranch st rest
    else (st, [])

/- ### Todos (cli_assistant.py:194-252) -/

/-- The `add` branch of `todo_manager` (cli_assistant.py:202-214). -/
def todoAddBranch (now : String) (st : St) (rest : List String) : St × List String :=
  if rest.isEmpty then (st, ["Usage: todo add <task description>"])
  else
    let task := joinSp rest
    let todos := st.todos ++ [⟨task, false, now⟩]
    ({ st with todos := todos, fs := save_json st.fs todosPath (todosToJson todos) },
     ["Todo added: " ++ task])

/-- The `list` branch of `todo_manager` (cli_assistant.py:216-222):
1-based enumeration with a status symbol. -/
def todoListBranch (st : St) : St × List String :=
  if st.todos.isEmpty then (st, ["No todos found"])
  else
    (st, st.todos.enum.map (fun p =>
      toString (p.1 + 1) ++ ". " ++ (if p.2.done then "✓" else "○") ++ " " ++ p.2.task))

/-- The `done` branch of `todo_manager` (cli_assistant.py:224-237):
`task_num = int(args[1]) - 1`, range check `0 <= task_num < len(todos)`,
mark done and persist, else report; a non-numeric argument is the caught
`ValueError`. -/
def todoDoneBranch (st : St) (numStr : String) : St × List String :=
  match pyToInt numStr with
  | none => (st, ["Task number must be a number"])
  | some k =>
    let task_num := k - 1
    if 0 ≤ task_num ∧ task_num < (st.todos.length : Int) then
      match st.todos.get? task_num.toNat with
      | some t =>
        let todos := st.todos.set task_num.toNat { t with done := true }
        ({ st with todos := todos, fs := save_json st.fs todosPath (todosToJson todos) },
         ["Todo marked as done: " ++ t.task])
      | none => (st, [])
    else (st, ["Invalid task number"])

/-- The `delete` branch of `todo_manager` (cli_assistant.py:239-252):
like `done`, but `pop(task_num)` removes the item. -/
def todoDeleteBranch (st : St) (numStr : String) : St × List String :=
  match pyToInt numStr with
  | none => (st, ["Task number must be a number"])
  | some k =>
    let task_num := k - 1
    if 0 ≤ task_num ∧ task_num < (st.todos.length : Int) then
      match st.todos.get? task_num.toNat with
      | some t =>
        let todos := st.todos.eraseIdx task_num.toNat
        ({ st with todos := todos, fs := save_json st.fs todosPath (todosToJson todos) },
         ["Todo deleted: " ++ t.task])
      | none => (st, [])
    else (st, ["Invalid task number"])

/-- `todo_manager(args)` (cli_assistant.py:194-252): dispatch on the lowered
action word; an unrecognized action falls through silently. -/
def todo_manager (now : String) (st : St) (args : List String) : St × List String :=
  match args with
  | [] => (st, ["Usage: todo <add|list|done|delete> [arguments]"])
  | a0 :: rest =>
    let action := pyLower a0
    if action = "add" then todoAddBranch now st rest
    else if action = "list" then todoListBranch st
    else if action = "done" then
      match rest with
      | [] => (st, ["Usage: todo done <task_number>"])
      | numStr :: _ => todoDoneBranch st numStr
    else if action = "delete" then
      match rest with
      | [] => (st, ["Usage: todo delete <task_number>"])
      | numStr :: _ => todoDeleteBranch st numStr
    else (st, [])

/- ### File search output (cli_assistant.py:374-383) -/

/-- The lines `search_files` prints once `directory.rglob` has produced
`matches` (cli_assistant.py:374-383): a count header, the first 20 matches
(`matches[:20]`), and, when more matched, a single `... and N more` line.
The usage and `PermissionError` branches print no paths and are not
modelled. -/
def search_files (ms : List String) : List String :=
  if ms.isEmpty then ["No matches found"]
  else
    ("Found " ++ toString ms.length ++ " matches:")
      :: (ms.take 20).map (fun m => "  " ++ m)
      ++ (if 20 < ms.length then
            ["  ... and " ++ toString (ms.length - 20) ++ " more"]
          else [])

/- ### Dispatcher (cli_assistant.py:407-436) -/

/-- The keys of `self.commands` (cli_assistant.py:12-28). -/
def knownCommands : List String :=
  ["help", "time", "date", "weather", "calc", "note", "todo", "files", "system",
   "convert", "search", "history", "clear", "exit", "quit"]

/-- The handler table, restricted to state effects and the outputs the claims
need: `calc`, `note` and `todo` are modelled in full; the remaining handlers
only print (or, for `exit`/`quit`, leave the process) and never assign to
`self.notes`, `self.todos` or `self.history`, so they are the identity on
state with their output elided. -/
def runHandler (now : String) (st : St) (cmd : String) (args : List String) :
    St × List String :=
  match cmd with
  | "calc" => (st, calculator args)
  | "note" => note_manager now st args
  | "todo" => todo_manager now st args
  | _ => (st, [])

/-- `execute_command(command, args)` (cli_assistant.py:414-421): a command
found in the registry is first recorded in history as
`f"{command} {' '.join(args)}"` and then run; an unknown command only prints
the two notice lines. -/
def execute_command (now : String) (st : St) (command : String) (args : List String) :
    St × List String :=
  if command ∈ knownCommands then
    let st1 := add_to_history now st (command ++ " " ++ joinSp args)
    runHandler now st1 command args
  else
    (st, ["Unknown command: " ++ command,
          "Type " ++ squote ++ "help" ++ squote ++ " for available commands"])

/-- `parse_command(command_line)` (cli_assistant.py:407-412): strip, split on
whitespace; an empty token list yields no command, else the first token
lowered and the rest as arguments. -/
def parse_command (command_line : String) : Option String × List String :=
  match pySplitWs (pyStrip command_line) with
  | [] => (none, [])
  | c :: rest => (some (pyLower c), rest)

/-- One iteration of the interactive loop `run` (cli_assistant.py:428-436):
strip the input line, skip it when empty, otherwise parse and dispatch. -/
def processLine (now : String) (st : St) (line : String) : St × List String :=
  let command_line := pyStrip line
  if command_line = "" then (st, [])
  else
    match parse_command command_line with
    | (some c, args) => execute_command now st c args
    | (none, _) => (st, [])

/- ### Note-add sequences (for the last-write-wins claim) -/

/-- One `note add <title> <content>` operation with the timestamp taken at
execution time (cli_assistant.py:152-155). -/
structure NoteAdd where
  title : String
  content : String
  timestamp : String
  deriving Repr, DecidableEq

/-- Run a sequence of `note add` operations from an empty collection; each
performs exactly the dict assignment of cli_assistant.py:155. -/
def runAdds (ops : List NoteAdd) : NotesData :=
  ops.foldl (fun ns op => dictInsert ns op.title ⟨op.content, op.timestamp⟩) []

/- ################################################################ -/
/- ### Theorems                                                    -/
/- ################################################################ -/

/- ### Claim C2: bounded history -/

/-- C2: after `add_to_history` the history holds at most 100 entries, and
appending to a history of exactly 100 entries drops exactly the oldest and
keeps the most recent 100 (the old tail followed by the new entry). -/
theorem add_to_history_bounded (now : String) (st : St) (c : String) :
    (add_to_history now st c).history.length ≤ 100 ∧
    (st.history.length = 100 →
      (add_to_history now st c).history = st.history.tail ++ [⟨c, now⟩]) := by
  constructor
  · simp only [add_to_history, histAppend, List.length_drop, List.length_append,
      List.length_singleton]
    omega
  · intro h100
    simp only [add_to_history, histAppend, List.length_append, List.length_singleton, h100]
    have : (100 + 1 - 100) = 1 := by omega
    rw [this]
    cases hs : st.history with
    | nil => simp [hs] at h100
    | cons a t => simp

/-- Witness for C2 at a concrete 100-entry history. -/
theorem add_to_history_bounded_witness :
    (add_to_history "T" ⟨[], [], List.replicate 100 ⟨"x", "t"⟩, fun _ => none⟩ "cmd").history.length ≤ 100 ∧
    (add_to_history "T" ⟨[], [], List.replicate 100 ⟨"x", "t"⟩, fun _ => none⟩ "cmd").history
      = (List.replicate 100 (⟨"x", "t"⟩ : HistEntry)).tail ++ [⟨"cmd", "T"⟩] := by
  refine ⟨(add_to_history_bounded "T" _ "cmd").1, ?_⟩
  exact (add_to_history_bounded "T" ⟨[], [], List.replicate 100 ⟨"x", "t"⟩, fun _ => none⟩ "cmd").2
    (by simp)

/- ### Claims C3 and C4: persistence round-trip and load fallback -/

/-- Decoding inverts encoding for the notes collection. -/
theorem notesFromJson_notesToJson (ns : NotesData) :
    notesFromJson (notesToJson ns) = some ns := by
  induction ns with
  | nil => rfl
  | cons p r ih =>
    simp only [notesToJson, notesFromJson, List.map_cons, notesFromJsonKVs, noteFromJson,
      noteToJson] at ih ⊢
    rw [ih]

/-- Decoding inverts encoding for the todo sequence. -/
theorem todosFromJson_todosToJson (ts : TodosData) :
    todosFromJson (todosToJson ts) = some ts := by
  induction ts with
  | nil => rfl
  | cons t r ih =>
    simp only [todosToJson, todosFromJson, List.map_cons, todosFromJsonList, todoFromJson,
      todoToJson] at ih ⊢
    rw [ih]

/-- Decoding inverts encoding for the history sequence. -/
theorem histFromJson_histToJson (h : HistData) :
    histFromJson (histToJson h) = some h := by
  induction h with
  | nil => rfl
  | cons e r ih =>
    simp only [histToJson, histFromJson, List.map_cons, histFromJsonList, histEntryFromJson,
      histEntryToJson] at ih ⊢
    rw [ih]

/-- C3: for every path and every value of one of the three collection types,
`save_json` followed by `load_json` returns exactly the saved value, whatever
the default; the bundled decoding equations make the three encodings
lossless, so the recovered JSON determines the original collection. -/
theorem save_load_roundtrip (fs : FS) (path : String) (d : Json)
    (ns : NotesData) (ts : TodosData) (h : HistData) :
    load_json (save_json fs path (notesToJson ns)) path d = notesToJson ns ∧
    load_json (save_json fs path (todosToJson ts)) path d = todosToJson ts ∧
    load_json (save_json fs path (histToJson h)) path d = histToJson h ∧
    notesFromJson (notesToJson ns) = some ns ∧
    todosFromJson (todosToJson ts) = some ts ∧
    histFromJson (histToJson h) = some h := by
  refine ⟨?_, ?_, ?_, notesFromJson_notesToJson ns, todosFromJson_todosToJson ts,
    histFromJson_histToJson h⟩ <;> simp [load_json, save_json]

/-- C4: `load_json` returns the parsed JSON content when the file exists and
parses, and returns the default when the file is missing or its content fails
to parse (malformed JSON or I/O error).  `load_json` is a total function, so
no exception can reach the caller in the model. -/
theorem load_json_contract (fs : FS) (path : String) (d : Json) :
    (∀ j, fs path = some (.good j) → load_json fs path d = j) ∧
    (fs path = none → load_json fs path d = d) ∧
    (fs path = some .bad → load_json fs path d = d) := by
  refine ⟨fun j hj => ?_, fun hn => ?_, fun hb => ?_⟩
  · simp [load_json, hj]
  · simp [load_json, hn]
  · simp [load_json, hb]

/-- Witness for C4: a file system holding one parsed file, one malformed file,
and nothing else. -/
theorem load_json_contract_witness :
    load_json (fun p => if p = "a" then some (.good (.str "v"))
      else if p = "b" then some .bad else none) "a" .null = .str "v" ∧
    load_json (fun p => if p = "a" then some (.good (.str "v"))
      else if p = "b" then some .bad else none) "b" .null = .null ∧
    load_json (fun p => if p = "a" then some (.good (.str "v"))
      else if p = "b" then some .bad else none) "c" .null = .null := by
  refine ⟨(load_json_contract _ "a" .null).1 (.str "v") (by simp),
    (load_json_contract _ "b" .null).2.2 (by simp),
    (load_json_contract _ "c" .null).2.1 (by simp)⟩

/- ### Handler state lemmas (shared helpers) -/

/-- The `note add` branch does not touch `self.history`. -/
theorem noteAddBranch_history (now : String) (st : St) (rest : List String) :
    (noteAddBranch now st rest).1.history = st.history := by
  rcases rest with _ | ⟨t, _ | ⟨c, cs⟩⟩ <;> rfl

/-- The `note list` branch does not touch `self.history`. -/
theorem noteListBranch_history (st : St) :
    (noteListBranch st).1.history = st.history := by
  unfold noteListBranch
  split <;> rfl

/-- The `note delete` branch does not touch `self.history`. -/
theorem noteDeleteBranch_history (st : St) (rest : List String) :
    (noteDeleteBranch st rest).1.history = st.history := by
  rcases rest with _ | ⟨t, r⟩
  · rfl
  · unfold noteDeleteBranch
    repeat' split
    all_goals rfl

/-- The `note search` branch does not touch `self.history`. -/
theorem noteSearchBranch_history (st : St) (rest : List String) :
    (noteSearchBranch st rest).1.history = st.history := by
  rcases rest with _ | ⟨t, r⟩
  · rfl
  · unfold noteSearchBranch
    dsimp only
    repeat' split
    all_goals rfl

/-- No branch of `note_manager` touches `self.history`. -/
theorem note_manager_history (now : String) (st : St) (args : List String) :
    (note_manager now st args).1.history = st.history := by
  rcases args with _ | ⟨a0, rest⟩
  · rfl
  · unfold note_manager
    dsimp only
    split_ifs
    · exact noteAddBranch_history now st rest
    · exact noteListBranch_history st
    · exact noteDeleteBranch_history st rest
    · exact noteSearchBranch_history st rest
    · rfl

/-- The `todo add` branch does not touch `self.history`. -/
theorem todoAddBranch_history (now : String) (st : St) (rest : List String) :
    (todoAddBranch now st rest).1.history = st.history := by
  unfold todoAddBranch
  split <;> rfl

/-- The `todo list` branch does not touch `self.history`. -/
theorem todoListBranch_history (st : St) :
    (todoListBranch st).1.history = st.history := by
  unfold todoListBranch
  split <;> rfl

/-- The `todo done` branch does not touch `self.history`. -/
theorem todoDoneBranch_history (st : St) (n : String) :
    (todoDoneBranch st n).1.history = st.history := by
  unfold todoDoneBranch
  cases pyToInt n with
  | none => rfl
  | some k =>
    dsimp only
    split
    · cases st.todos.get? (k - 1).toNat <;> rfl
    · rfl

/-- The `todo delete` branch does not touch `self.history`. -/
theorem todoDeleteBranch_history (st : St) (n : String) :
    (todoDeleteBranch st n).1.history = st.history := by
  unfold todoDeleteBranch
  cases pyToInt n with
  | none => rfl
  | some k =>
    dsimp only
    split
    · cases st.todos.get? (k - 1).toNat <;> rfl
    · rfl

/-- No branch of `todo_manager` touches `self.history`. -/
theorem todo_manager_history (now : String) (st : St) (args : List String) :
    (todo_manager now st args).1.history = st.history := by
  rcases args with _ | ⟨a0, rest⟩
  · rfl
  · unfold todo_manager
    dsimp only
    split_ifs
    · exact todoAddBranch_history now st rest
    · exact todoListBranch_history st
    · rcases rest with _ | ⟨n, r⟩
      · rfl
      · exact todoDoneBranch_history st n
    · rcases rest with _ | ⟨n, r⟩
      · rfl
      · exact todoDeleteBranch_history st n
    · rfl

/-- No handler touches `self.history`. -/
theorem runHandler_history (now : String) (st : St) (cmd : String) (args : List String) :
    (runHandler now st cmd args).1.history = st.history := by
  unfold runHandler
  split
  · rfl
  · exact note_manager_history now st args
  · exact todo_manager_history now st args
  · rfl

/- ### Claim C1: what gets recorded in history -/

/-- C1 counterexample: dispatching the unknown command `foo x` from an empty
history appends nothing — the history stays empty, where the claim demands a
`"foo x"` entry.  (`add_to_history` is only called inside the
`command in self.commands` branch, cli_assistant.py:416-417.) -/
theorem unknown_command_appends_no_history :
    ("foo" ∈ knownCommands → False) ∧
    (execute_command "T" ⟨[], [], [], fun _ => none⟩ "foo" ["x"]).1.history = [] := by
  exact ⟨by decide, by decide⟩

/-- C1 (amended): every dispatched command whose name is in the registry —
including ones whose handler then fails or reports an error — is recorded
verbatim as `"<command> <space-joined args>"` before its handler runs;
dispatching an unknown command appends no history entry. -/
theorem execute_command_history (now : String) (st : St) (cmd : String) (args : List String) :
    (cmd ∈ knownCommands →
      (execute_command now st cmd args).1.history
        = histAppend st.history ⟨cmd ++ " " ++ joinSp args, now⟩) ∧
    (cmd ∉ knownCommands →
      (execute_command now st cmd args).1.history = st.history) := by
  constructor
  · intro h
    unfold execute_command
    rw [if_pos h]
    rw [runHandler_history]
    rfl
  · intro h
    unfold execute_command
    rw [if_neg h]

/-- Witness for C1's amended theorem: a known command is recorded, an unknown
one is not. -/
theorem execute_command_history_witness :
    (execute_command "T" ⟨[], [], [], fun _ => none⟩ "calc" ["1"]).1.history
      = histAppend (St.history ⟨[], [], [], fun _ => none⟩) ⟨"calc" ++ " " ++ joinSp ["1"], "T"⟩ ∧
    (execute_command "T" ⟨[], [], [], fun _ => none⟩ "zap" ["1"]).1.history
      = St.history ⟨[], [], [], fun _ => none⟩ :=
  ⟨(execute_command_history "T" ⟨[], [], [], fun _ => none⟩ "calc" ["1"]).1 (by decide),
   (execute_command_history "T" ⟨[], [], [], fun _ => none⟩ "zap" ["1"]).2 (by decide)⟩

/- ### Claims C5 and C10: todo index handling -/

/-- `todo done <x>` reduces to the `done` branch. -/
theorem todo_manager_done_eq (now : String) (st : St) (s : String) (rest : List String) :
    todo_manager now st ("done" :: s :: rest) = todoDoneBranch st s := rfl

/-- `todo delete <x>` reduces to the `delete` branch. -/
theorem todo_manager_delete_eq (now : String) (st : St) (s : String) (rest : List String) :
    todo_manager now st ("delete" :: s :: rest) = todoDeleteBranch st s := rfl

/-- C5: an index that parses as an integer outside `[1, N]` leaves the whole
state (todos, notes, history, and the file system — so nothing is persisted)
exactly unchanged and reports `Invalid task number`, for both `todo done` and
`todo delete`. -/
theorem todo_out_of_range (now : String) (st : St) (s : String) (rest : List String) (k : Int)
    (hp : pyToInt s = some k) (hk : k < 1 ∨ (st.todos.length : Int) < k) :
    todo_manager now st ("done" :: s :: rest) = (st, ["Invalid task number"]) ∧
    todo_manager now st ("delete" :: s :: rest) = (st, ["Invalid task number"]) := by
  have hneg : ¬(0 ≤ k - 1 ∧ k - 1 < (st.todos.length : Int)) := by omega
  constructor
  · rw [todo_manager_done_eq]
    unfold todoDoneBranch
    rw [hp]
    dsimp only
    rw [if_neg hneg]
  · rw [todo_manager_delete_eq]
    unfold todoDeleteBranch
    rw [hp]
    dsimp only
    rw [if_neg hneg]

/-- Witness for C5: index 5 on a one-element todo list. -/
theorem todo_out_of_range_witness :
    todo_manager "T" ⟨[], [⟨"a", false, "t"⟩], [], fun _ => none⟩ ("done" :: "5" :: [])
      = (⟨[], [⟨"a", false, "t"⟩], [], fun _ => none⟩, ["Invalid task number"]) ∧
    todo_manager "T" ⟨[], [⟨"a", false, "t"⟩], [], fun _ => none⟩ ("delete" :: "5" :: [])
      = (⟨[], [⟨"a", false, "t"⟩], [], fun _ => none⟩, ["Invalid task number"]) :=
  todo_out_of_range "T" ⟨[], [⟨"a", false, "t"⟩], [], fun _ => none⟩ "5" [] 5
    (by decide) (by decide)

/-- C10: an index argument that does not parse as an integer (Python's
`ValueError` from `int(...)`) reports `Task number must be a number`, raises
nothing, and leaves the whole state — todo list included — unchanged and
unpersisted, for both `todo done` and `todo delete`. -/
theorem todo_non_numeric (now : String) (st : St) (s : String) (rest : List String)
    (hp : pyToInt s = none) :
    todo_manager now st ("done" :: s :: rest) = (st, ["Task number must be a number"]) ∧
    todo_manager now st ("delete" :: s :: rest) = (st, ["Task number must be a number"]) := by
  constructor
  · rw [todo_manager_done_eq]
    unfold todoDoneBranch
    rw [hp]
  · rw [todo_manager_delete_eq]
    unfold todoDeleteBranch
    rw [hp]

/-- Witness for C10: the non-numeric index `xy`. -/
theorem todo_non_numeric_witness :
    todo_manager "T" ⟨[], [⟨"a", false, "t"⟩], [], fun _ => none⟩ ("done" :: "xy" :: [])
      = (⟨[], [⟨"a", false, "t"⟩], [], fun _ => none⟩, ["Task number must be a number"]) ∧
    todo_manager "T" ⟨[], [⟨"a", false, "t"⟩], [], fun _ => none⟩ ("delete" :: "xy" :: [])
      = (⟨[], [⟨"a", false, "t"⟩], [], fun _ => none⟩, ["Task number must be a number"]) :=
  todo_non_numeric "T" ⟨[], [⟨"a", false, "t"⟩], [], fun _ => none⟩ "xy" [] (by decide)

/- ### Claim C6: note add is last-write-wins with unique titles -/

/-- Keys after a dict assignment: unchanged when the key was present,
extended at the end otherwise. -/
theorem keysN_dictInsert (l : NotesData) (k : String) (v : Note) :
    keysN (dictInsert l k v) = if k ∈ keysN l then keysN l else keysN l ++ [k] := by
  induction l with
  | nil => simp [dictInsert, keysN]
  | cons p r ih =>
    rcases p with ⟨k1, v1⟩
    by_cases h : k1 = k
    · subst h
      simp [dictInsert, keysN]
    · simp only [dictInsert, if_neg h, keysN, List.map_cons] at ih ⊢
      rw [ih]
      by_cases hm : k ∈ List.map Prod.fst r
      · rw [if_pos hm, if_pos (by simp [hm])]
      · rw [if_neg hm, if_neg (by simp [List.mem_cons, hm, Ne.symm h]), List.cons_append]

/-- Dict assignment preserves distinctness of the keys. -/
theorem nodup_keysN_dictInsert (l : NotesData) (k : String) (v : Note)
    (h : (keysN l).Nodup) : (keysN (dictInsert l k v)).Nodup := by
  rw [keysN_dictInsert]
  by_cases hm : k ∈ keysN l
  · rwa [if_pos hm]
  · rw [if_neg hm]
    simp [List.nodup_append, h, hm]

/-- Membership in the keys after a dict assignment. -/
theorem mem_keysN_dictInsert (l : NotesData) (k : String) (v : Note) (t : String) :
    t ∈ keysN (dictInsert l k v) ↔ t ∈ keysN l ∨ t = k := by
  rw [keysN_dictInsert]
  by_cases hm : k ∈ keysN l
  · rw [if_pos hm]
    exact ⟨Or.inl, fun h => h.elim id (fun e => e ▸ hm)⟩
  · rw [if_neg hm]
    simp

/-- Looking up the assigned key returns the assigned value. -/
theorem lookupN_dictInsert_self (l : NotesData) (k : String) (v : Note) :
    lookupN (dictInsert l k v) k = some v := by
  induction l with
  | nil => simp [dictInsert, lookupN]
  | cons p r ih =>
    rcases p with ⟨k1, v1⟩
    by_cases h : k1 = k
    · subst h
      simp [dictInsert, lookupN]
    · simp [dictInsert, lookupN, h, ih]

/-- Looking up a different key is unaffected by a dict assignment. -/
theorem lookupN_dictInsert_ne (l : NotesData) (k : String) (v : Note) (t : String)
    (h : t ≠ k) : lookupN (dictInsert l k v) t = lookupN l t := by
  induction l with
  | nil =>
    simp only [dictInsert, lookupN]
    rw [if_neg (Ne.symm h)]
  | cons p r ih =>
    rcases p with ⟨k1, v1⟩
    by_cases h1 : k1 = k
    · subst h1
      simp only [dictInsert, if_pos rfl, lookupN]
      rw [if_neg (Ne.symm h), if_neg (Ne.symm h)]
    · simp only [dictInsert, if_neg h1, lookupN]
      by_cases h2 : k1 = t
      · rw [if_pos h2, if_pos h2]
      · rw [if_neg h2, if_neg h2]
        exact ih

/-- Running note adds from the end: the fold peels the last operation. -/
theorem runAdds_concat (l : List NoteAdd) (a : NoteAdd) :
    runAdds (l ++ [a]) = dictInsert (runAdds l) a.title ⟨a.content, a.timestamp⟩ := by
  simp [runAdds, List.foldl_append]

/-- C6: after any finite sequence of `note add` operations, the collection
has distinct titles, its titles are exactly the titles that were added, and
each title maps to the content and timestamp of the last add of that title. -/
theorem note_add_last_write_wins (ops : List NoteAdd) :
    (keysN (runAdds ops)).Nodup ∧
    (∀ t, t ∈ keysN (runAdds ops) ↔ t ∈ ops.map NoteAdd.title) ∧
    (∀ t op, (ops.filter (fun o => o.title = t)).getLast? = some op →
      lookupN (runAdds ops) t = some ⟨op.content, op.timestamp⟩) := by
  induction ops using List.reverseRecOn with
  | nil =>
    refine ⟨by simp [runAdds, keysN], by simp [runAdds, keysN], ?_⟩
    intro t op h
    simp at h
  | append_singleton l a ih =>
    obtain ⟨ih1, ih2, ih3⟩ := ih
    refine ⟨?_, ?_, ?_⟩
    · rw [runAdds_concat]
      exact nodup_keysN_dictInsert _ _ _ ih1
    · intro t
      rw [runAdds_concat, mem_keysN_dictInsert]
      simp [ih2 t]
    · intro t op h
      rw [runAdds_concat]
      rw [List.filter_append] at h
      by_cases ht : a.title = t
      · have hfa : List.filter (fun o => decide (o.title = t)) [a] = [a] := by
          simp [ht]
        rw [hfa, List.getLast?_concat] at h
        injection h with h
        subst h
        rw [← ht]
        exact lookupN_dictInsert_self _ _ _
      · have hfa : List.filter (fun o => decide (o.title = t)) [a] = [] := by
          simp [ht]
        rw [hfa, List.append_nil] at h
        rw [lookupN_dictInsert_ne _ _ _ _ (Ne.symm ht)]
        exact ih3 t op h

/-- Witness for C6: add `a`, `b`, then re-add `a`; the collection has the two
distinct titles and `a` carries the last add's content and timestamp. -/
theorem note_add_last_write_wins_witness :
    (keysN (runAdds [⟨"a", "1", "t1"⟩, ⟨"b", "2", "t2"⟩, ⟨"a", "3", "t3"⟩])).Nodup ∧
    ("a" ∈ keysN (runAdds [⟨"a", "1", "t1"⟩, ⟨"b", "2", "t2"⟩, ⟨"a", "3", "t3"⟩]) ↔
      "a" ∈ [⟨"a", "1", "t1"⟩, ⟨"b", "2", "t2"⟩, (⟨"a", "3", "t3"⟩ : NoteAdd)].map NoteAdd.title) ∧
    lookupN (runAdds [⟨"a", "1", "t1"⟩, ⟨"b", "2", "t2"⟩, ⟨"a", "3", "t3"⟩]) "a"
      = some ⟨"3", "t3"⟩ :=
  ⟨(note_add_last_write_wins [⟨"a", "1", "t1"⟩, ⟨"b", "2", "t2"⟩, ⟨"a", "3", "t3"⟩]).1,
   (note_add_last_write_wins [⟨"a", "1", "t1"⟩, ⟨"b", "2", "t2"⟩, ⟨"a", "3", "t3"⟩]).2.1 "a",
   (note_add_last_write_wins [⟨"a", "1", "t1"⟩, ⟨"b", "2", "t2"⟩, ⟨"a", "3", "t3"⟩]).2.2 "a"
     ⟨"a", "3", "t3"⟩ (by decide)⟩

/- ### Claim C7: calculator evaluation and whitelist rejection -/

/-- C7: `calc 2 + 3 * 4` prints `2 + 3 * 4 = 14`, and any non-empty argument
list whose space-joined expression contains a character outside the whitelist
`{0-9 + - * / . ( ) space}` is rejected with the
`Only basic math operations allowed` message — the rejection branch is taken
before `pyEvalInt` is consulted, so nothing is evaluated. -/
theorem calculator_spec (args : List String) (hne : args ≠ [])
    (hbad : ∃ c ∈ (joinSp args).data, allowedChar c = false) :
    calculator ["2", "+", "3", "*", "4"] = ["2 + 3 * 4 = 14"] ∧
    calculator args = ["Error: Only basic math operations allowed"] := by
  constructor
  · decide
  · have hempty : args.isEmpty = false := by
      cases args with
      | nil => exact absurd rfl hne
      | cons a r => rfl
    have hfalse : (joinSp args).data.all allowedChar = false := by
      rcases hbad with ⟨c, hc, hcf⟩
      rw [List.all_eq_false]
      exact ⟨c, hc, by simp [hcf]⟩
    unfold calculator
    rw [hempty]
    dsimp only
    rw [hfalse]
    rfl

/-- Witness for C7: the rejection at `calc DROP TABLE` (the `D` is outside the
whitelist). -/
theorem calculator_spec_witness :
    calculator ["2", "+", "3", "*", "4"] = ["2 + 3 * 4 = 14"] ∧
    calculator ["DROP", "TABLE"] = ["Error: Only basic math operations allowed"] :=
  calculator_spec ["DROP", "TABLE"] (by decide) ⟨'D', by decide, by decide⟩

/- ### Claim C8: parsing and blank-line handling -/

/-- C8: `parse_command` splits the (stripped) line on whitespace into the
lowercased first token and the remaining tokens; a line that is empty or all
whitespace yields no command, and the interactive-loop step on such a line
leaves the state — history included — untouched, dispatching nothing. -/
theorem parse_command_spec (line now : String) (st : St) :
    (line.data.all Char.isWhitespace = true →
      parse_command line = (none, []) ∧ processLine now st line = (st, [])) ∧
    (∀ c rest, pySplitWs (pyStrip line) = c :: rest →
      parse_command line = (some (pyLower c), rest)) := by
  constructor
  · intro hws
    have h1 : line.data.dropWhile Char.isWhitespace = [] := by
      rw [List.dropWhile_eq_nil_iff]
      intro x hx
      exact List.all_eq_true.mp hws x hx
    have hstrip : pyStripList line.data = [] := by
      simp [pyStripList, h1]
    have hempty : pyStrip line = "" := by
      unfold pyStrip
      rw [hstrip]
    constructor
    · unfold parse_command
      rw [hempty]
      rfl
    · unfold processLine
      dsimp only
      rw [hempty]
      rfl
  · intro c rest hsplit
    unfold parse_command
    rw [hsplit]

/-- Witness for C8: a whitespace-only line is a no-op; a real line splits
into a lowered command and its arguments. -/
theorem parse_command_spec_witness :
    (parse_command "  \t " = (none, []) ∧
      processLine "T" ⟨[], [], [], fun _ => none⟩ "  \t "
        = (⟨[], [], [], fun _ => none⟩, [])) ∧
    parse_command " NoTe a b" = (some (pyLower "NoTe"), ["a", "b"]) :=
  ⟨(parse_command_spec "  \t " "T" ⟨[], [], [], fun _ => none⟩).1 (by decide),
   (parse_command_spec " NoTe a b" "T" ⟨[], [], [], fun _ => none⟩).2 "NoTe" ["a", "b"]
     (by decide)⟩

/- ### Claim C9: search prints at most 20 paths -/

/-- C9: for every non-empty match list, `search_files` prints the count
header, then at most 20 path lines — exactly the indented first 20 matches —
and, precisely when more than 20 matched, one trailing line carrying only the
count of the remaining matches. -/
theorem search_files_truncates (ms : List String) (hne : ms ≠ []) :
    ∃ rest, search_files ms =
        ("Found " ++ toString ms.length ++ " matches:")
          :: (ms.take 20).map (fun m => "  " ++ m) ++ rest ∧
      ((ms.take 20).map (fun m => "  " ++ m)).length ≤ 20 ∧
      (20 < ms.length →
        rest = ["  ... and " ++ toString (ms.length - 20) ++ " more"]) ∧
      (ms.length ≤ 20 → rest = []) := by
  refine ⟨if 20 < ms.length then ["  ... and " ++ toString (ms.length - 20) ++ " more"]
    else [], ?_, ?_, ?_, ?_⟩
  · unfold search_files
    rw [if_neg (by simpa [List.isEmpty_iff] using hne)]
  · simp only [List.length_map, List.length_take]
    omega
  · intro h
    rw [if_pos h]
  · intro h
    rw [if_neg (by omega)]

/-- Witness for C9 at 21 matches: 20 paths plus a `... and 1 more` line. -/
theorem search_files_truncates_witness :
    ∃ rest, search_files (List.replicate 21 "f") =
        ("Found " ++ toString (List.replicate 21 "f").length ++ " matches:")
          :: ((List.replicate 21 "f").take 20).map (fun m => "  " ++ m) ++ rest ∧
      (((List.replicate 21 "f").take 20).map (fun m => "  " ++ m)).length ≤ 20 ∧
      (20 < (List.replicate 21 "f").length →
        rest = ["  ... and " ++ toString ((List.replicate 21 "f").length - 20) ++ " more"]) ∧
      ((List.replicate 21 "f").length ≤ 20 → rest = []) :=
  search_files_truncates (List.replicate 21 "f") (by decide)
